import Mathlib

/-!
Verification of the huxiu-rss generator (`scripts/generate-rss.mjs`).

The script fetches the mobile huxiu.com home page, extracts the inline
`window.__NUXT__ = (function(...){...}(...));` assignment, evaluates it in a
sandbox, navigates to `data[0].hotArticlesList`, and renders that list as an
RSS 2.0 document.  This file gives a shallow embedding of the pure logic of
that script and proves (or refutes) the specification claims about it.

Conventions of the embedding:
  - JavaScript strings are Lean `String` / `List Char`.
  - Optional / possibly-absent record fields are `Option` values
    (`none` models `undefined` / a value that `?? ""` turns into `""`).
  - JavaScript numbers are `ℚ` (all values the script manipulates are exact).
  - Fallible operations return `Except String`, carrying the script's
    error message verbatim.
-/

namespace HuxiuRss

/-! ## The XML escaper (`escapeXml`)

The script runs five sequential `replaceAll` passes over the string:
`&` → `&amp;`, `<` → `&lt;`, `>` → `&gt;`, `"` → `&quot;`, `'` → `&apos;`
(in that order).  `replaceAllChar` models one `replaceAll` pass whose search
pattern is a single character. -/

def ampEntity : List Char := ['&', 'a', 'm', 'p', ';']

def ltEntity : List Char := ['&', 'l', 't', ';']

def gtEntity : List Char := ['&', 'g', 't', ';']

def quotEntity : List Char := ['&', 'q', 'u', 'o', 't', ';']

def aposEntity : List Char := ['&', 'a', 'p', 'o', 's', ';']

def replaceAllChar (t : Char) (r : List Char) : List Char → List Char
  | [] => []
  | c :: cs => (if c = t then r else [c]) ++ replaceAllChar t r cs

def escapeXmlList (s : List Char) : List Char :=
  replaceAllChar '\'' aposEntity
    (replaceAllChar '"' quotEntity
      (replaceAllChar '>' gtEntity
        (replaceAllChar '<' ltEntity
          (replaceAllChar '&' ampEntity s))))

def escapeXml (s : String) : String :=
  String.mk (escapeXmlList s.data)

/-- Per-character view of the escaper: what one input character contributes
to the output.  (The five sequential passes agree with this single pass
because no later pass's target character occurs in an earlier pass's
replacement text.) -/
def escChar (c : Char) : List Char :=
  if c = '&' then ampEntity
  else if c = '<' then ltEntity
  else if c = '>' then gtEntity
  else if c = '"' then quotEntity
  else if c = '\'' then aposEntity
  else [c]

def charsPrefix : List Char → List Char → Bool
  | [], _ => true
  | _ :: _, [] => false
  | a :: as, b :: bs => if a = b then charsPrefix as bs else false

/-- `entityAt cs` holds when `cs` starts with the tail of one of the five
entities the escaper can emit (the part after the `&`). -/
def entityAt (cs : List Char) : Bool :=
  charsPrefix (ampEntity.drop 1) cs || charsPrefix (ltEntity.drop 1) cs ||
  charsPrefix (gtEntity.drop 1) cs || charsPrefix (quotEntity.drop 1) cs ||
  charsPrefix (aposEntity.drop 1) cs

/-- A character list is XML-escaped: it contains no raw `<`, `>`, `"`, `'`,
and every `&` begins one of the five entities emitted by the escaper. -/
def isEscapedList : List Char → Bool
  | [] => true
  | c :: cs =>
    (if c = '&' then entityAt cs
     else decide (c ≠ '<' ∧ c ≠ '>' ∧ c ≠ '"' ∧ c ≠ '\'')) && isEscapedList cs

def isEscapedStr (s : String) : Bool := isEscapedList s.data

/-! ## The article record model

`ArticleRecord` carries exactly the projections of one element of
`hotArticlesList` that `buildRssFromHotArticles` reads.  Text-valued fields
are `Option String`:
  - `none` models `undefined`/`null` (which the script's `?? ""` turns into
    the empty string);
  - `aid` holds the `String(...)`-converted identifier;
  - `is_original` / `is_video_article` hold the JS truthiness of the raw
    field values, which is all the script uses of them. -/

structure UserInfo where
  username : Option String

structure ArticleRecord where
  title : Option String := none
  url : Option String := none
  aid : Option String := none
  user_info : Option UserInfo := none
  pic_path : Option String := none
  is_original : Bool := false
  is_video_article : Bool := false

def HOME_URL : String := "https://m.huxiu.com/"

/-! ## The feed transformer (`buildRssFromHotArticles`)

Each local constant of the item-building closure in the script becomes a
definition; `buildItem` assembles them exactly as the script's template
literals do. -/

def itemTitle (a : ArticleRecord) : String := escapeXml (a.title.getD "")

def itemLink (a : ArticleRecord) : String := escapeXml (a.url.getD "")

def guidRaw (a : ArticleRecord) : String :=
  if itemLink a ≠ "" then itemLink a else a.aid.getD ""

def guidText (a : ArticleRecord) : String := escapeXml (guidRaw a)

def isPermaLink (a : ArticleRecord) : String :=
  if itemLink a ≠ "" then "true" else "false"

def authorText (a : ArticleRecord) : String :=
  escapeXml ((a.user_info.bind UserInfo.username).getD "")

def picPathStr (a : ArticleRecord) : String := a.pic_path.getD ""

def enclosureUrl (a : ArticleRecord) : String := escapeXml (picPathStr a)

def enclosureStr (a : ArticleRecord) : String :=
  if picPathStr a ≠ "" then
    "\n      <enclosure url=\"" ++ enclosureUrl a ++ "\" type=\"image/jpeg\" />"
  else ""

def authorTag (a : ArticleRecord) : String :=
  if authorText a ≠ "" then "<author>" ++ authorText a ++ "</author>"
  else "<author />"

def descParts (a : ArticleRecord) : List String :=
  (if a.is_original then ["原创"] else []) ++
  (if a.is_video_article then ["视频"] else []) ++
  (if authorText a ≠ "" then ["作者：" ++ authorText a] else [])

def descText (a : ArticleRecord) : String :=
  String.intercalate " | " (descParts a)

def buildItem (a : ArticleRecord) : String :=
  String.intercalate "\n"
    [ "    <item>",
      "      <title>" ++ itemTitle a ++ "</title>",
      "      <link>" ++ itemLink a ++ "</link>",
      "      <guid isPermaLink=\"" ++ isPermaLink a ++ "\">" ++ guidText a ++ "</guid>",
      "      " ++ authorTag a,
      "      <description><![CDATA[" ++ descText a ++ "]]></description>" ++ enclosureStr a,
      "    </item>" ]

structure RssOpts where
  title : Option String := none
  link : Option String := none
  description : Option String := none

/-- The channel serializer.  `now` stands for `new Date().toUTCString()`,
which is the one non-deterministic input of the renderer. -/
def buildRssFromHotArticles (hotArticlesList : List ArticleRecord)
    (opts : RssOpts) (now : String) : String :=
  String.intercalate "\n"
    [ "<?xml version=\"1.0\" encoding=\"UTF-8\"?>",
      "<rss version=\"2.0\">",
      "  <channel>",
      "    <title>" ++ escapeXml (opts.title.getD "虎嗅 - 热门文章") ++ "</title>",
      "    <link>" ++ escapeXml (opts.link.getD HOME_URL) ++ "</link>",
      "    <description>" ++
        escapeXml (opts.description.getD "来自 m.huxiu.com 首页的 hotArticlesList") ++
        "</description>",
      "    <lastBuildDate>" ++ now ++ "</lastBuildDate>",
      String.intercalate "\n" (hotArticlesList.map buildItem),
      "  </channel>",
      "</rss>",
      "" ]

/-! ## Configuration (`envNumber`)

`envNumber(name, fallback)` reads `process.env[name]`; `null`/`undefined` or
the empty string yield the fallback, otherwise `Number(raw)` is returned when
finite, else the fallback.  `jsNumber` models `Number(raw)` restricted to the
values on which it is finite: it trims whitespace, accepts an optional sign,
decimal digits with optional fraction and exponent, and returns `none` on
anything else (`NaN`).  A whitespace-only string converts to `0`.  (The
builtin additionally accepts hex/octal/binary literals, which are not
modelled; `"Infinity"` is non-finite and so falls back either way.) -/

def wsChar (c : Char) : Bool :=
  c = ' ' || c = '\t' || c = '\n' || c = '\r' || c = '\x0c' || c = '\x0b'

def natOfDigits (l : List Char) : Nat :=
  l.foldl (fun acc c => acc * 10 + (c.toNat - '0'.toNat)) 0

def parseSign : List Char → (Bool × List Char)
  | '-' :: cs => (true, cs)
  | '+' :: cs => (false, cs)
  | cs => (false, cs)

def parseMantissa (cs : List Char) : Option (Nat × Nat × List Char) :=
  let ds := cs.takeWhile Char.isDigit
  let r1 := cs.dropWhile Char.isDigit
  match ds, r1 with
  | [], '.' :: r2 =>
    let fr := r2.takeWhile Char.isDigit
    let r3 := r2.dropWhile Char.isDigit
    if fr = [] then none
    else some (natOfDigits fr, fr.length, r3)
  | [], _ => none
  | ds, '.' :: r2 =>
    let fr := r2.takeWhile Char.isDigit
    let r3 := r2.dropWhile Char.isDigit
    some (natOfDigits ds * 10 ^ fr.length + natOfDigits fr, fr.length, r3)
  | ds, r1 => some (natOfDigits ds, 0, r1)

def parseExponent (cs : List Char) : Option (ℤ × List Char) :=
  match cs with
  | 'e' :: r | 'E' :: r =>
    let sr := parseSign r
    let ds := sr.2.takeWhile Char.isDigit
    let r2 := sr.2.dropWhile Char.isDigit
    if ds = [] then none
    else some ((if sr.1 then -(natOfDigits ds : ℤ) else (natOfDigits ds : ℤ)), r2)
  | cs => some (0, cs)

def jsNumber (s : String) : Option ℚ :=
  let cs := ((s.data.dropWhile wsChar).reverse.dropWhile wsChar).reverse
  if cs = [] then some 0
  else
    let sg := parseSign cs
    match parseMantissa sg.2 with
    | none => none
    | some (m, flen, r1) =>
      match parseExponent r1 with
      | none => none
      | some (e, r2) =>
        if r2 = [] then
          let n : ℤ := if sg.1 then -(m : ℤ) else (m : ℤ)
          if 0 ≤ e then some (mkRat (n * (10 : ℤ) ^ e.toNat) (10 ^ flen))
          else some (mkRat n (10 ^ flen * 10 ^ (-e).toNat))
        else none

def envNumber (raw : Option String) (fallback : ℚ) : ℚ :=
  match raw with
  | none => fallback
  | some r =>
    if r = "" then fallback
    else match jsNumber r with
         | some n => n
         | none => fallback

def FETCH_RETRY_MAX (env : Option String) : ℚ := envNumber env 3

def FETCH_RETRY_BASE_DELAY_MS (env : Option String) : ℚ := envNumber env 500

def FETCH_RETRY_MAX_DELAY_MS (env : Option String) : ℚ := envNumber env 8000

/-! ## Backoff policy (`clamp`, `backoffDelayMs`)

`backoffDelayMs(attempt)` computes
`clamp(Math.floor(base * 2^(attempt-1) * (0.5 + Math.random())), 0, maxDelay)`.
`rand` stands for the `Math.random()` draw (in `[0, 1)`), so the claim's
jitter factor `U ∈ [0.5, 1.5)` is `1/2 + rand`. -/

def clamp (n lo hi : ℚ) : ℚ := min (max n lo) hi

def backoffDelayMs (base maxDelay : ℚ) (attempt : Nat) (rand : ℚ) : ℚ :=
  clamp ((⌊base * 2 ^ (attempt - 1) * (1 / 2 + rand)⌋ : ℤ) : ℚ) 0 maxDelay

/-! ## Retry wrapper (`withRetry`)

The operation is modelled as a function from the (1-indexed) invocation
number to that invocation's outcome.  `withRetry` returns the final outcome
together with the number of times the operation was invoked.  Mirrors:
`attempts = Math.max(1, maxAttempts ?? 1)`; loop `attempt = 1..attempts`;
on failure the error is remembered and, once `attempt >= attempts`, the last
error is rethrown unchanged. -/

def retryAux {ε α : Type} (fn : Nat → Except ε α) (attempt rest : Nat) :
    Except ε α × Nat :=
  match fn attempt, rest with
  | Except.ok a, _ => (Except.ok a, 1)
  | Except.error e, 0 => (Except.error e, 1)
  | Except.error _, rest + 1 =>
    ((retryAux fn (attempt + 1) rest).1, (retryAux fn (attempt + 1) rest).2 + 1)

def withRetry {ε α : Type} (fn : Nat → Except ε α) (maxAttempts : Option ℤ) :
    Except ε α × Nat :=
  retryAux fn 1 ((max 1 (maxAttempts.getD 1)).toNat - 1)

/-! ## Recovered state values (`JVal`)

The sandboxed evaluation of the embedded expression yields an untrusted
plain data structure; `JVal` models such values (objects are ordered
key/value lists with distinct keys, as produced by object literals). -/

inductive JVal where
  | null : JVal
  | bool : Bool → JVal
  | num : ℚ → JVal
  | str : String → JVal
  | arr : List JVal → JVal
  | obj : List (String × JVal) → JVal

def lookupField : List (String × JVal) → String → Option JVal
  | [], _ => none
  | (k, v) :: rest, key => if k = key then some v else lookupField rest key

/-- Optional-chaining property access `v?.k`: `none` models `undefined`
(field absent, or the base is not an object). -/
def getField (v : JVal) (k : String) : Option JVal :=
  match v with
  | JVal.obj fields => lookupField fields k
  | _ => none

/-- JavaScript truthiness of a value. -/
def jvalTruthy : JVal → Bool
  | JVal.null => false
  | JVal.bool b => b
  | JVal.num q => decide (q ≠ 0)
  | JVal.str s => decide (s ≠ "")
  | JVal.arr _ => true
  | JVal.obj _ => true

mutual

/-- JavaScript `String(v)` for a non-nullish value.  (Array elements that are
nullish stringify to the empty string; decimal rendering of non-integral
numbers is approximated by the `ℚ` printer, which no claim exercises.) -/
def jvalToText : JVal → String
  | JVal.null => "null"
  | JVal.bool b => if b then "true" else "false"
  | JVal.num q => if q.den = 1 then toString q.num else toString q
  | JVal.str s => s
  | JVal.arr xs => String.intercalate "," (jvalElemTexts xs)
  | JVal.obj _ => "[object Object]"

def jvalElemTexts : List JVal → List String
  | [] => []
  | JVal.null :: rest => "" :: jvalElemTexts rest
  | v :: rest => jvalToText v :: jvalElemTexts rest

end

/-- `x ?? ""` followed by use as text: nullish collapses to `none`
(later read back as `""`), anything else is `String(...)`-converted. -/
def optText (v : Option JVal) : Option String :=
  match v with
  | none => none
  | some JVal.null => none
  | some v => some (jvalToText v)

/-- Projection of one raw `hotArticlesList` element to the fields the feed
transformer reads, with the script's `?.` / `?? ""` / truthiness semantics.
(A container-valued `pic_path` is not modelled; the script only meets
string-or-absent values there.) -/
def jvalToArticle (a : JVal) : ArticleRecord :=
  { title := optText (getField a "title")
    url := optText (getField a "url")
    aid := optText (getField a "aid")
    user_info := (getField a "user_info").map fun u =>
      { username := optText (getField u "username") }
    pic_path := optText (getField a "pic_path")
    is_original := ((getField a "is_original").map jvalTruthy).getD false
    is_video_article := ((getField a "is_video_article").map jvalTruthy).getD false }

/-! ## Sandbox result check (`evalNuxtExpression`, final step)

After running `window.__NUXT__ = <expr>;` in the sandbox the script reads
`sandbox.window.__NUXT__` and throws when `!nuxt`.  The input is the value
the evaluation assigned to the property (`none` = left unset / `undefined`). -/

def noResultMsg : String := "执行后未得到 window.__NUXT__"

def evalNuxtResult (v : Option JVal) : Except String JVal :=
  match v with
  | none => Except.error noResultMsg
  | some val => if jvalTruthy val then Except.ok val else Except.error noResultMsg

/-! ## Pipeline navigation (`generateRss`, after fetch/extract/eval)

`data = nuxtData?.data`; `first = Array.isArray(data) ? data[0] : undefined`;
`hotArticlesList = first?.hotArticlesList`; throw unless it is an array. -/

def structureErrMsg : String := "未找到 data[0].hotArticlesList，页面结构可能变更"

def generateRssOpts : RssOpts :=
  { title := some "虎嗅 - 热门文章(hotArticlesList)"
    link := some HOME_URL
    description := some "从虎嗅移动端首页 __NUXT__ 中提取的热门文章列表" }

def generateRssFromNuxt (now : String) (nuxtData : JVal) : Except String String :=
  let data := getField nuxtData "data"
  let first : Option JVal :=
    match data with
    | some (JVal.arr xs) => xs.head?
    | _ => none
  let hot : Option JVal := first.bind fun f => getField f "hotArticlesList"
  match hot with
  | some (JVal.arr xs) =>
    Except.ok (buildRssFromHotArticles (xs.map jvalToArticle) generateRssOpts now)
  | _ => Except.error structureErrMsg

/-! ## Embedded-expression extraction (`extractNuxtExpression`)

The script matches the regular expression

  `window\.__NUXT__\s*=\s*(\(\s*function\s*\([\s\S]*?\)\s*\{[\s\S]*?\}\s*\([\s\S]*?\)\s*\))\s*;?`

against the HTML and returns capture group 1 of the first (leftmost) match.
The matcher below implements exactly this pattern's backtracking semantics:
  - each lazy `[\s\S]*?` first tries its continuation at the current
    position and only then consumes one character (shortest-first, as in the
    engine);
  - each `\s*` may be taken greedily without backtracking because in this
    pattern every `\s*` is followed by a literal non-whitespace character,
    so shorter whitespace runs can never make the continuation match;
  - the trailing `\s*;?` can never fail and lies outside the capture group,
    so it is irrelevant to the result and omitted.
`wsCount` counts the greedy `\s*` run (the whitespace characters that occur
in practice; `\s` also covers unicode spaces, which are not modelled). -/

def wsCount (cs : List Char) : Nat := (cs.takeWhile wsChar).length

/-- Matches `\)\s*\)` (after the third lazy run): the close of the argument
list followed by the close of the captured parenthesized expression. -/
def matchTail3 (cs : List Char) : Option Nat :=
  match cs with
  | ')' :: r1 =>
    let k := wsCount r1
    match r1.drop k with
    | ')' :: _ => some (1 + k + 1)
    | _ => none
  | _ => none

/-- The third lazy run `[\s\S]*?` before `\)\s*\)`. -/
def lazy3 (cs : List Char) : Option Nat :=
  match matchTail3 cs with
  | some n => some n
  | none =>
    match cs with
    | [] => none
    | _ :: r => (lazy3 r).map (· + 1)

/-- Matches `\}\s*\(` followed by the third lazy run and `\)\s*\)`. -/
def matchTail2 (cs : List Char) : Option Nat :=
  match cs with
  | '\x7d' :: r1 =>
    let k := wsCount r1
    match r1.drop k with
    | '(' :: r2 => (lazy3 r2).map fun n => 1 + k + 1 + n
    | _ => none
  | _ => none

/-- The second lazy run `[\s\S]*?` (the function body) before `\}\s*\(`. -/
def lazy2 (cs : List Char) : Option Nat :=
  match matchTail2 cs with
  | some n => some n
  | none =>
    match cs with
    | [] => none
    | _ :: r => (lazy2 r).map (· + 1)

/-- Matches `\)\s*\{` followed by the rest of the group. -/
def matchTail1 (cs : List Char) : Option Nat :=
  match cs with
  | ')' :: r1 =>
    let k := wsCount r1
    match r1.drop k with
    | '\x7b' :: r2 => (lazy2 r2).map fun n => 1 + k + 1 + n
    | _ => none
  | _ => none

/-- The first lazy run `[\s\S]*?` (the parameter list) before `\)\s*\{`. -/
def lazy1 (cs : List Char) : Option Nat :=
  match matchTail1 cs with
  | some n => some n
  | none =>
    match cs with
    | [] => none
    | _ :: r => (lazy1 r).map (· + 1)

/-- Capture group 1, `\(\s*function\s*\([\s\S]*?\)\s*\{...\)`: returns the
number of characters of `cs` the group spans. -/
def matchGroup (cs : List Char) : Option Nat :=
  match cs with
  | '(' :: r1 =>
    let k1 := wsCount r1
    if charsPrefix "function".data (r1.drop k1) then
      let r2 := (r1.drop k1).drop 8
      let k2 := wsCount r2
      match r2.drop k2 with
      | '(' :: r3 => (lazy1 r3).map fun n => 1 + k1 + 8 + k2 + 1 + n
      | _ => none
    else none
  | _ => none

def windowNuxtLit : List Char := "window.__NUXT__".data

/-- Matches `window\.__NUXT__\s*=\s*`, returning the characters consumed. -/
def matchPre (cs : List Char) : Option Nat :=
  if charsPrefix windowNuxtLit cs then
    let r1 := cs.drop 15
    let k1 := wsCount r1
    match r1.drop k1 with
    | '=' :: r3 => some (15 + k1 + 1 + wsCount r3)
    | _ => none
  else none

/-- One attempt of the whole pattern anchored at the start of `cs`,
returning capture group 1 on success. -/
def extractAtPos (cs : List Char) : Option (List Char) :=
  match matchPre cs with
  | none => none
  | some n1 =>
    match matchGroup (cs.drop n1) with
    | none => none
    | some n2 => some ((cs.drop n1).take n2)

/-- Leftmost-match scan, as `RegExp.exec` performs it. -/
def scanNuxt : List Char → Option (List Char)
  | [] => none
  | c :: rest =>
    match extractAtPos (c :: rest) with
    | some g => some g
    | none => scanNuxt rest

def extractionErrMsg : String := "未找到 window.__NUXT__ 赋值的内联脚本片段"

def extractNuxtExpression (html : String) : Except String String :=
  match scanNuxt html.data with
  | some g => Except.ok (String.mk g)
  | none => Except.error extractionErrMsg

/-! Concrete strings for the extractor claim.  Braces are written `\x7b` /
`\x7d`. -/

def magicExpr : String :=
  "(function(a,b)\x7breturn \x7bdata:[\x7bhotArticlesList:[]\x7d]\x7d\x7d(1,2))"

def magicAssign : String := "window.__NUXT__ = " ++ magicExpr ++ ";"

/-- Modelled from the spec: the sandboxed evaluation of `magicExpr` — the
self-invoking function ignores its parameters and returns its object
literal — yields an object whose `data[0].hotArticlesList` is an empty
sequence.  (The general evaluator is the Node `vm` runtime and is not part
of the repository; only this data-literal instance is needed.) -/
def magicNuxtValue : JVal :=
  JVal.obj [("data", JVal.arr [JVal.obj [("hotArticlesList", JVal.arr [])]])]

/-! ## Concrete inputs used by the claims -/

/-- The one-record list of the feed-transformer round-trip claim:
`{title:"A & B", url:"https://x/1", user_info:{username:"<me>"}, is_original:true}`. -/
def c2Article : ArticleRecord :=
  { title := some "A & B"
    url := some "https://x/1"
    user_info := some ⟨some "<me>"⟩
    is_original := true }

/-- A record whose text fields all contain XML-special characters. -/
def c1Rec : ArticleRecord :=
  { title := some "a<&b"
    url := some "u&v"
    aid := some "id>7"
    user_info := some ⟨some "x'y"⟩
    pic_path := some "p\"q" }

/-- An operation that fails on its first invocation (with error `"e1"`) and
succeeds on invocation 2 with value `42` — the `k = 1` scenario of the
retry claim. -/
def failOnceFn : Nat → Except String Nat :=
  fun i => if i = 1 then Except.error "e1"
           else if i = 2 then Except.ok 42
           else Except.error "late"

/-- HTML that contains the well-formed target assignment, but preceded by a
decoy `window.__NUXT__` assignment whose self-invoking expression comes
first in the document. -/
def decoyHtml : String :=
  "window.__NUXT__ = (function(x)\x7by\x7d(z)); " ++ magicAssign

def decoyExpr : String := "(function(x)\x7by\x7d(z))"

/-! ## Escaper lemmas -/

theorem replaceAllChar_append (t : Char) (r xs ys : List Char) :
    replaceAllChar t r (xs ++ ys) = replaceAllChar t r xs ++ replaceAllChar t r ys := by
  induction xs with
  | nil => simp [replaceAllChar]
  | cons c cs ih => simp [replaceAllChar, ih]

theorem escapeXmlList_append (xs ys : List Char) :
    escapeXmlList (xs ++ ys) = escapeXmlList xs ++ escapeXmlList ys := by
  simp [escapeXmlList, replaceAllChar_append]

theorem escapeXmlList_single (c : Char) : escapeXmlList [c] = escChar c := by
  by_cases h1 : c = '&'
  · subst h1; decide
  by_cases h2 : c = '<'
  · subst h2; decide
  by_cases h3 : c = '>'
  · subst h3; decide
  by_cases h4 : c = '"'
  · subst h4; decide
  by_cases h5 : c = '\''
  · subst h5; decide
  simp [escapeXmlList, replaceAllChar, escChar, h1, h2, h3, h4, h5]

theorem escapeXmlList_cons (c : Char) (cs : List Char) :
    escapeXmlList (c :: cs) = escChar c ++ escapeXmlList cs := by
  have : c :: cs = [c] ++ cs := rfl
  rw [this, escapeXmlList_append, escapeXmlList_single]

theorem charsPrefix_append (l cs ys : List Char) (h : charsPrefix l cs = true) :
    charsPrefix l (cs ++ ys) = true := by
  induction l generalizing cs with
  | nil => simp [charsPrefix]
  | cons a as ih =>
    cases cs with
    | nil => simp [charsPrefix] at h
    | cons b bs =>
      simp only [charsPrefix, List.cons_append] at h ⊢
      by_cases hab : a = b
      · simpa [hab] using ih bs (by simpa [hab] using h)
      · simp [hab] at h

theorem entityAt_append (cs ys : List Char) (h : entityAt cs = true) :
    entityAt (cs ++ ys) = true := by
  simp only [entityAt, Bool.or_eq_true] at h ⊢
  rcases h with ((((h | h) | h) | h) | h)
  · exact Or.inl (Or.inl (Or.inl (Or.inl (charsPrefix_append _ _ _ h))))
  · exact Or.inl (Or.inl (Or.inl (Or.inr (charsPrefix_append _ _ _ h))))
  · exact Or.inl (Or.inl (Or.inr (charsPrefix_append _ _ _ h)))
  · exact Or.inl (Or.inr (charsPrefix_append _ _ _ h))
  · exact Or.inr (charsPrefix_append _ _ _ h)

theorem isEscapedList_append (xs ys : List Char) (hx : isEscapedList xs = true)
    (hy : isEscapedList ys = true) : isEscapedList (xs ++ ys) = true := by
  induction xs with
  | nil => simpa using hy
  | cons c cs ih =>
    simp only [isEscapedList, Bool.and_eq_true, List.cons_append] at hx ⊢
    refine ⟨?_, ih hx.2⟩
    by_cases hc : c = '&'
    · simpa [hc] using entityAt_append cs ys (by simpa [hc] using hx.1)
    · simpa [hc] using hx.1

theorem isEscaped_escChar (c : Char) : isEscapedList (escChar c) = true := by
  by_cases h1 : c = '&'
  · subst h1; decide
  by_cases h2 : c = '<'
  · subst h2; decide
  by_cases h3 : c = '>'
  · subst h3; decide
  by_cases h4 : c = '"'
  · subst h4; decide
  by_cases h5 : c = '\''
  · subst h5; decide
  simp [escChar, isEscapedList, h1, h2, h3, h4, h5]

theorem isEscaped_escapeXmlList (s : List Char) :
    isEscapedList (escapeXmlList s) = true := by
  induction s with
  | nil => decide
  | cons c cs ih =>
    rw [escapeXmlList_cons]
    exact isEscapedList_append _ _ (isEscaped_escChar c) ih

theorem isEscaped_escapeXml (s : String) : isEscapedStr (escapeXml s) = true :=
  isEscaped_escapeXmlList s.data

theorem escChar_ne_nil (c : Char) : escChar c ≠ [] := by
  by_cases h1 : c = '&'
  · subst h1; decide
  by_cases h2 : c = '<'
  · subst h2; decide
  by_cases h3 : c = '>'
  · subst h3; decide
  by_cases h4 : c = '"'
  · subst h4; decide
  by_cases h5 : c = '\''
  · subst h5; decide
  simp [escChar, h1, h2, h3, h4, h5]

theorem escapeXmlList_eq_nil_iff (s : List Char) :
    escapeXmlList s = [] ↔ s = [] := by
  cases s with
  | nil => simp [escapeXmlList, replaceAllChar]
  | cons c cs =>
    rw [escapeXmlList_cons]
    simp [escChar_ne_nil c]

theorem escapeXml_eq_empty_iff (s : String) : escapeXml s = "" ↔ s = "" := by
  constructor
  · intro h
    have h2 : escapeXmlList s.data = [] := congrArg String.data h
    have h3 : s.data = [] := (escapeXmlList_eq_nil_iff s.data).mp h2
    cases s with
    | mk d =>
      cases h3
      rfl
  · intro h
    subst h
    rfl

/-! ## Claim C1 — field values outside the CDATA block are escaped -/

/-- C1: for every article list and every record in it, the values built from
the record's `title`, `url`, `aid` (inside the guid), `pic_path` and
`user_info.username` that the item template places outside the CDATA
description block are exactly the XML-escaped texts, so `<`, `>`, `&`, `"`
and `'` from those fields never appear unescaped there; and `buildItem`
interpolates precisely these escaped values into the fixed markup. -/
theorem c1_field_values_escaped (hotArticlesList : List ArticleRecord)
    (a : ArticleRecord) (_h : a ∈ hotArticlesList) :
    isEscapedStr (itemTitle a) = true ∧ isEscapedStr (itemLink a) = true ∧
    isEscapedStr (guidText a) = true ∧ isEscapedStr (authorText a) = true ∧
    isEscapedStr (enclosureUrl a) = true ∧
    buildItem a = String.intercalate "\n"
      [ "    <item>",
        "      <title>" ++ itemTitle a ++ "</title>",
        "      <link>" ++ itemLink a ++ "</link>",
        "      <guid isPermaLink=\"" ++ isPermaLink a ++ "\">" ++ guidText a ++ "</guid>",
        "      " ++ authorTag a,
        "      <description><![CDATA[" ++ descText a ++ "]]></description>" ++ enclosureStr a,
        "    </item>" ] :=
  ⟨isEscaped_escapeXml _, isEscaped_escapeXml _, isEscaped_escapeXml _,
   isEscaped_escapeXml _, isEscaped_escapeXml _, rfl⟩

/-- Witness for C1 at a concrete one-record list whose fields all contain
XML-special characters. -/
theorem c1_witness :
    isEscapedStr (itemTitle c1Rec) = true ∧ isEscapedStr (itemLink c1Rec) = true ∧
    isEscapedStr (guidText c1Rec) = true ∧ isEscapedStr (authorText c1Rec) = true ∧
    isEscapedStr (enclosureUrl c1Rec) = true ∧
    buildItem c1Rec = String.intercalate "\n"
      [ "    <item>",
        "      <title>" ++ itemTitle c1Rec ++ "</title>",
        "      <link>" ++ itemLink c1Rec ++ "</link>",
        "      <guid isPermaLink=\"" ++ isPermaLink c1Rec ++ "\">" ++ guidText c1Rec ++ "</guid>",
        "      " ++ authorTag c1Rec,
        "      <description><![CDATA[" ++ descText c1Rec ++ "]]></description>" ++ enclosureStr c1Rec,
        "    </item>" ] :=
  c1_field_values_escaped [c1Rec] c1Rec (List.mem_singleton.mpr rfl)

/-! ## Claim C2 — the one-record round trip -/

/-- C2 counterexample: for the record
`{title:"A & B", url:"https://x/1", user_info:{username:"<me>"}, is_original:true}`
the claim asserts the CDATA description content is `原创 | 作者：<me>` with
the username unescaped; the code in fact escapes the username *before*
assembling the description, so the CDATA content is `原创 | 作者：&lt;me&gt;`. -/
theorem c2_counterexample :
    descText c2Article = "原创 | 作者：&lt;me&gt;" ∧
    descText c2Article ≠ "原创 | 作者：<me>" := by
  constructor
  · rfl
  · decide

/-- C2 (amended): for the one-record list above, the produced item's title
content is `A &amp; B`, the guid has `isPermaLink="true"` with content the
escaped url, the CDATA description content is `原创 | 作者：&lt;me&gt;`
(the *escaped* username), and no enclosure is rendered. -/
theorem c2_amended :
    buildItem c2Article =
      "    <item>\n      <title>A &amp; B</title>\n      <link>https://x/1</link>\n      <guid isPermaLink=\"true\">https://x/1</guid>\n      <author>&lt;me&gt;</author>\n      <description><![CDATA[原创 | 作者：&lt;me&gt;]]></description>\n    </item>" ∧
    itemTitle c2Article = "A &amp; B" ∧
    isPermaLink c2Article = "true" ∧
    guidText c2Article = "https://x/1" ∧
    descText c2Article = "原创 | 作者：&lt;me&gt;" ∧
    enclosureStr c2Article = "" :=
  ⟨rfl, rfl, rfl, rfl, rfl, rfl⟩

/-! ## Claim C3 — guid content and the permalink flag -/

/-- C3: for every record, the guid value is the escaped url when the url is
non-empty, else the record's aid as text, else the empty string; the
`isPermaLink` attribute is `"true"` exactly when the url is non-empty, and a
record with neither url nor aid gets `isPermaLink="false"` with empty guid
content.  (When serialized, the guid value is passed once more through the
escaper: `guidText`.) -/
theorem c3_guid_permalink (a : ArticleRecord) :
    (a.url.getD "" ≠ "" →
      guidRaw a = escapeXml (a.url.getD "") ∧ isPermaLink a = "true") ∧
    (a.url.getD "" = "" →
      guidRaw a = a.aid.getD "" ∧ isPermaLink a = "false") ∧
    (a.url = none → a.aid = none →
      guidRaw a = "" ∧ isPermaLink a = "false") ∧
    guidText a = escapeXml (guidRaw a) := by
  have hlink : itemLink a = "" ↔ a.url.getD "" = "" := escapeXml_eq_empty_iff _
  refine ⟨?_, ?_, ?_, rfl⟩
  · intro h
    have h2 : itemLink a ≠ "" := fun h3 => h (hlink.mp h3)
    constructor
    · simp [guidRaw, h2]
      rfl
    · simp [isPermaLink, h2]
  · intro h
    have h2 : itemLink a = "" := hlink.mpr h
    constructor
    · simp [guidRaw, h2]
    · simp [isPermaLink, h2]
  · intro hu ha
    have h : a.url.getD "" = "" := by simp [hu]
    have h2 : itemLink a = "" := hlink.mpr h
    constructor
    · simp [guidRaw, h2, ha]
    · simp [isPermaLink, h2]

/-- Witness for C3 at three concrete records: url present, only aid present,
neither present. -/
theorem c3_witness :
    (guidRaw { url := some "https://x" } = escapeXml "https://x" ∧
      isPermaLink ({ url := some "https://x" } : ArticleRecord) = "true") ∧
    (guidRaw { aid := some "42" } = "42" ∧
      isPermaLink ({ aid := some "42" } : ArticleRecord) = "false") ∧
    (guidRaw ({} : ArticleRecord) = "" ∧
      isPermaLink ({} : ArticleRecord) = "false") :=
  ⟨(c3_guid_permalink { url := some "https://x" }).1 (by decide),
   (c3_guid_permalink { aid := some "42" }).2.1 rfl,
   (c3_guid_permalink {}).2.2.1 rfl rfl⟩

/-! ## Retry lemmas -/

theorem retryAux_success {ε α : Type} (fn : Nat → Except ε α) (a : α) :
    ∀ (j attempt rest : Nat), j ≤ rest →
      (∀ i, attempt ≤ i → i < attempt + j → ∃ e, fn i = Except.error e) →
      fn (attempt + j) = Except.ok a →
      retryAux fn attempt rest = (Except.ok a, j + 1) := by
  intro j
  induction j with
  | zero =>
    intro attempt rest _ _ hsucc
    simp only [Nat.add_zero] at hsucc
    cases rest <;> simp [retryAux, hsucc]
  | succ j ih =>
    intro attempt rest hle hfail hsucc
    obtain ⟨e, he⟩ := hfail attempt (Nat.le_refl _) (by omega)
    obtain ⟨r, rfl⟩ : ∃ r, rest = r + 1 := ⟨rest - 1, by omega⟩
    have ihres := ih (attempt + 1) r (by omega)
      (fun i h1 h2 => hfail i (by omega) (by omega))
      (by rw [show attempt + 1 + j = attempt + (j + 1) by omega]; exact hsucc)
    simp [retryAux, he, ihres]

theorem retryAux_lastfail {ε α : Type} (fn : Nat → Except ε α) :
    ∀ (rest attempt : Nat) (e : ε),
      (∀ i, attempt ≤ i → i < attempt + rest → ∃ e, fn i = Except.error e) →
      fn (attempt + rest) = Except.error e →
      retryAux fn attempt rest = (Except.error e, rest + 1) := by
  intro rest
  induction rest with
  | zero =>
    intro attempt e _ hlast
    simp only [Nat.add_zero] at hlast
    simp [retryAux, hlast]
  | succ rest ih =>
    intro attempt e hfail hlast
    obtain ⟨e0, he0⟩ := hfail attempt (Nat.le_refl _) (by omega)
    have ihres := ih (attempt + 1) e
      (fun i h1 h2 => hfail i (by omega) (by omega))
      (by rw [show attempt + 1 + rest = attempt + (rest + 1) by omega]; exact hlast)
    simp [retryAux, he0, ihres]

theorem retryAux_invokes {ε α : Type} (fn : Nat → Except ε α) :
    ∀ (rest attempt : Nat), 1 ≤ (retryAux fn attempt rest).2 := by
  intro rest
  induction rest with
  | zero =>
    intro attempt
    rcases h : fn attempt with e | a <;> simp [retryAux, h]
  | succ rest ih =>
    intro attempt
    rcases h : fn attempt with e | a <;> simp [retryAux, h]

theorem retryAux_count_allfail {ε α : Type} (fn : Nat → Except ε α)
    (hall : ∀ i, ∃ e, fn i = Except.error e) :
    ∀ (rest attempt : Nat), (retryAux fn attempt rest).2 = rest + 1 := by
  intro rest
  induction rest with
  | zero =>
    intro attempt
    obtain ⟨e, he⟩ := hall attempt
    simp [retryAux, he]
  | succ rest ih =>
    intro attempt
    obtain ⟨e, he⟩ := hall attempt
    simp [retryAux, he, ih]

/-! ## Claim C4 — retry behaviour for an operation failing k times -/

/-- C4 counterexample: the claim quantifies over *every* attempt ceiling and
predicts that with a ceiling ≤ k the operation is invoked exactly `ceiling`
times.  For the operation failing once then succeeding (`k = 1`) and
ceiling `0 ≤ k`, the code clamps the attempt count to `max(1, 0) = 1` and
invokes the operation once, not zero times (returning invocation 1's
error). -/
theorem c4_counterexample :
    withRetry failOnceFn (some 0) = (Except.error "e1", 1) ∧ (1 : Nat) ≠ 0 :=
  ⟨rfl, by decide⟩

/-- C4 (amended): restricted to ceilings ≥ 1 (ceilings below 1 are clamped
to a single attempt, see C10).  For an operation failing on its first `k`
invocations and succeeding on invocation `k+1`: with ceiling ≥ k+1 the
wrapper returns the success after exactly k+1 invocations; with
1 ≤ ceiling ≤ k it fails after exactly `ceiling` invocations, propagating
the last failure raised (invocation #ceiling's error) unchanged. -/
theorem c4_retry_amended {ε α : Type} (k : Nat) (c : ℤ) (hc : 1 ≤ c)
    (fn : Nat → Except ε α) (a : α)
    (hfail : ∀ i, 1 ≤ i → i ≤ k → ∃ e, fn i = Except.error e)
    (hsucc : fn (k + 1) = Except.ok a) :
    ((k : ℤ) + 1 ≤ c → withRetry fn (some c) = (Except.ok a, k + 1)) ∧
    (c ≤ (k : ℤ) → ∀ e, fn c.toNat = Except.error e →
      withRetry fn (some c) = (Except.error e, c.toNat)) := by
  have hmax : (max 1 c).toNat = c.toNat := by omega
  constructor
  · intro hck
    have hrest : k ≤ c.toNat - 1 := by omega
    have := retryAux_success fn a k 1 (c.toNat - 1) hrest
      (fun i h1 h2 => hfail i h1 (by omega))
      (by rw [show 1 + k = k + 1 by omega]; exact hsucc)
    simpa [withRetry, hmax] using this
  · intro hck e he
    have h1 : 1 ≤ c.toNat := by omega
    have := retryAux_lastfail fn (c.toNat - 1) 1 e
      (fun i hi1 hi2 => hfail i hi1 (by omega))
      (by rw [show 1 + (c.toNat - 1) = c.toNat by omega]; exact he)
    simp only [withRetry, Option.getD_some]
    rw [hmax, this]
    congr 1
    omega

/-- Witness for C4 (amended), both branches: with the operation failing once
then succeeding, ceiling 3 returns the success after 2 invocations, and
ceiling 1 returns invocation 1's error after 1 invocation. -/
theorem c4_witness :
    withRetry failOnceFn (some 3) = (Except.ok 42, 2) ∧
    withRetry failOnceFn (some 1) = (Except.error "e1", 1) := by
  have hfail : ∀ i, 1 ≤ i → i ≤ 1 → ∃ e, failOnceFn i = Except.error e := by
    intro i h1 h2
    have : i = 1 := Nat.le_antisymm h2 h1
    subst this
    exact ⟨"e1", rfl⟩
  have hsucc : failOnceFn (1 + 1) = Except.ok 42 := rfl
  constructor
  · exact (c4_retry_amended 1 3 (by decide) failOnceFn 42 hfail hsucc).1 (by decide)
  · exact (c4_retry_amended 1 1 (by decide) failOnceFn 42 hfail hsucc).2 (by decide) "e1" rfl

/-! ## Claim C10 — the wrapper always invokes the operation at least once -/

/-- C10: for every attempt-ceiling value — zero, negative, or missing — the
effective attempt count is `max 1 ceiling`, so the operation is invoked at
least once; and when every invocation fails, it is invoked exactly
`max 1 ceiling` times. -/
theorem c10_at_least_once {ε α : Type} (fn : Nat → Except ε α)
    (m : Option ℤ) :
    1 ≤ (withRetry fn m).2 ∧
    ((∀ i, ∃ e, fn i = Except.error e) →
      (withRetry fn m).2 = (max 1 (m.getD 1)).toNat) := by
  constructor
  · exact retryAux_invokes fn _ 1
  · intro hall
    rw [withRetry, retryAux_count_allfail fn hall]
    have ht : (1 : ℤ) ≤ max 1 (m.getD 1) := le_max_left _ _
    omega

/-- Witness for C10 at ceiling `-2` with an always-failing operation: the
operation is invoked exactly once. -/
theorem c10_witness :
    1 ≤ (withRetry (fun _ => (Except.error "x" : Except String Nat)) (some (-2))).2 ∧
    (withRetry (fun _ => (Except.error "x" : Except String Nat)) (some (-2))).2 =
      (max 1 ((some (-2) : Option ℤ).getD 1)).toNat :=
  ⟨(c10_at_least_once (fun _ => (Except.error "x" : Except String Nat)) (some (-2))).1,
   (c10_at_least_once (fun _ => (Except.error "x" : Except String Nat)) (some (-2))).2
     (fun _ => ⟨"x", rfl⟩)⟩

/-! ## Claim C5 — backoff delay formula and bounds -/

/-- C5: for every attempt `n ≥ 1` and jitter factor `U = 1/2 + rand`
with `rand ∈ [0, 1)` (so `U ∈ [0.5, 1.5)`), and for the configured
parameters — a non-negative base and a non-negative whole number of
milliseconds as maximum delay, per the configuration contract — the delay
equals `clamp(floor(base·2^(n-1)·U), 0, maxDelay)`, is an integer in
`[0, maxDelay]`, and never exceeds `1.5 · base·2^(n-1)`. -/
theorem c5_backoff_delay (base : ℚ) (maxDelay : ℤ) (n : Nat) (rand : ℚ)
    (_hn : 1 ≤ n) (hb : 0 ≤ base) (hm : (0 : ℤ) ≤ maxDelay)
    (_hr0 : 0 ≤ rand) (hr1 : rand < 1) :
    backoffDelayMs base (maxDelay : ℚ) n rand =
      clamp ((⌊base * 2 ^ (n - 1) * (1 / 2 + rand)⌋ : ℤ) : ℚ) 0 (maxDelay : ℚ) ∧
    (∃ z : ℤ, backoffDelayMs base (maxDelay : ℚ) n rand = (z : ℚ)) ∧
    0 ≤ backoffDelayMs base (maxDelay : ℚ) n rand ∧
    backoffDelayMs base (maxDelay : ℚ) n rand ≤ (maxDelay : ℚ) ∧
    backoffDelayMs base (maxDelay : ℚ) n rand ≤ 3 / 2 * (base * 2 ^ (n - 1)) := by
  have he : (0 : ℚ) ≤ base * 2 ^ (n - 1) := by positivity
  have hfloor : ((⌊base * 2 ^ (n - 1) * (1 / 2 + rand)⌋ : ℤ) : ℚ) ≤
      base * 2 ^ (n - 1) * (1 / 2 + rand) := Int.floor_le _
  have hU : base * 2 ^ (n - 1) * (1 / 2 + rand) ≤ 3 / 2 * (base * 2 ^ (n - 1)) := by
    nlinarith
  refine ⟨rfl, ?_, ?_, ?_, ?_⟩
  · refine ⟨min (max ⌊base * 2 ^ (n - 1) * (1 / 2 + rand)⌋ 0) maxDelay, ?_⟩
    simp only [backoffDelayMs, clamp]
    push_cast
    rfl
  · exact le_min (le_max_right _ _) (by exact_mod_cast hm)
  · exact min_le_right _ _
  · calc backoffDelayMs base (maxDelay : ℚ) n rand
        ≤ max ((⌊base * 2 ^ (n - 1) * (1 / 2 + rand)⌋ : ℤ) : ℚ) 0 := min_le_left _ _
      _ ≤ 3 / 2 * (base * 2 ^ (n - 1)) := max_le (hfloor.trans hU) (by positivity)

/-- Witness for C5 at `base = 500`, `maxDelay = 8000`, `n = 1`, `rand = 0`
(jitter factor `U = 0.5`): the delay is the integer 250. -/
theorem c5_witness :
    backoffDelayMs 500 ((8000 : ℤ) : ℚ) 1 0 = 250 ∧
    (∃ z : ℤ, backoffDelayMs 500 ((8000 : ℤ) : ℚ) 1 0 = (z : ℚ)) ∧
    0 ≤ backoffDelayMs 500 ((8000 : ℤ) : ℚ) 1 0 ∧
    backoffDelayMs 500 ((8000 : ℤ) : ℚ) 1 0 ≤ ((8000 : ℤ) : ℚ) ∧
    backoffDelayMs 500 ((8000 : ℤ) : ℚ) 1 0 ≤ 3 / 2 * (500 * 2 ^ (1 - 1)) := by
  have h := c5_backoff_delay 500 8000 1 0 (by norm_num) (by norm_num)
    (by norm_num) (by norm_num) (by norm_num)
  exact ⟨by norm_num [backoffDelayMs, clamp], h.2.1, h.2.2.1, h.2.2.2.1, h.2.2.2.2⟩

/-! ## Claim C6 — locating `data[0].hotArticlesList` -/

/-- C6: for every recovered state value, the pipeline reads the `data`
field, its first element and that element's `hotArticlesList` field; when
all three steps yield an ordered sequence / element, the feed is built from
that list; when `data` is not a sequence, or the sequence is empty, or the
first element's `hotArticlesList` is not a sequence, the pipeline fails
with the structure-changed error instead of producing any feed. -/
theorem c6_locate_structure (now : String) (nuxtData : JVal) :
    (∀ d0 ds xs, getField nuxtData "data" = some (JVal.arr (d0 :: ds)) →
      getField d0 "hotArticlesList" = some (JVal.arr xs) →
      generateRssFromNuxt now nuxtData =
        Except.ok (buildRssFromHotArticles (xs.map jvalToArticle) generateRssOpts now)) ∧
    ((¬ ∃ l, getField nuxtData "data" = some (JVal.arr l)) →
      generateRssFromNuxt now nuxtData = Except.error structureErrMsg) ∧
    (getField nuxtData "data" = some (JVal.arr []) →
      generateRssFromNuxt now nuxtData = Except.error structureErrMsg) ∧
    (∀ d0 ds, getField nuxtData "data" = some (JVal.arr (d0 :: ds)) →
      (¬ ∃ xs, getField d0 "hotArticlesList" = some (JVal.arr xs)) →
      generateRssFromNuxt now nuxtData = Except.error structureErrMsg) := by
  refine ⟨?_, ?_, ?_, ?_⟩
  · intro d0 ds xs hdata hhot
    simp [generateRssFromNuxt, hdata, hhot]
  · intro hnone
    rcases hd : getField nuxtData "data" with _ | v
    · simp [generateRssFromNuxt, hd]
    · cases v with
      | arr l => exact absurd ⟨l, hd⟩ hnone
      | null => simp [generateRssFromNuxt, hd]
      | bool b => simp [generateRssFromNuxt, hd]
      | num q => simp [generateRssFromNuxt, hd]
      | str s => simp [generateRssFromNuxt, hd]
      | obj fs => simp [generateRssFromNuxt, hd]
  · intro hdata
    simp [generateRssFromNuxt, hdata]
  · intro d0 ds hdata hnone
    rcases hh : getField d0 "hotArticlesList" with _ | v
    · simp [generateRssFromNuxt, hdata, hh]
    · cases v with
      | arr l => exact absurd ⟨l, hh⟩ hnone
      | null => simp [generateRssFromNuxt, hdata, hh]
      | bool b => simp [generateRssFromNuxt, hdata, hh]
      | num q => simp [generateRssFromNuxt, hdata, hh]
      | str s => simp [generateRssFromNuxt, hdata, hh]
      | obj fs => simp [generateRssFromNuxt, hdata, hh]

/-- Witness for C6: a well-shaped state with an empty article list yields
the feed for the empty list, and a state with no `data` field yields the
structure-changed error. -/
theorem c6_witness :
    generateRssFromNuxt "now" magicNuxtValue =
      Except.ok (buildRssFromHotArticles ([].map jvalToArticle) generateRssOpts "now") ∧
    generateRssFromNuxt "now" JVal.null = Except.error structureErrMsg :=
  ⟨(c6_locate_structure "now" magicNuxtValue).1
      (JVal.obj [("hotArticlesList", JVal.arr [])]) [] [] rfl rfl,
   (c6_locate_structure "now" JVal.null).2.1 (by rintro ⟨l, h⟩; simp [getField] at h)⟩

/-! ## Claim C7 — the sandbox no-result check -/

/-- C7 counterexample: the claim predicts that any assigned value other
than `undefined`/`null` — in particular `false` — is returned; the code's
`if (!nuxt)` is a truthiness test, so the assigned value `false` makes the
evaluator fail with the no-result error instead. -/
theorem c7_counterexample :
    evalNuxtResult (some (JVal.bool false)) = Except.error noResultMsg ∧
    evalNuxtResult (some (JVal.bool false)) ≠ Except.ok (JVal.bool false) :=
  ⟨rfl, by simp [evalNuxtResult, jvalTruthy]⟩

/-- C7 (amended): the evaluator fails with the no-result error iff the
assigned value is unset or falsy (`undefined`, `null`, `false`, `0`, or
the empty string); every truthy assigned value is returned unchanged. -/
theorem c7_amended (v : Option JVal) :
    (v = none → evalNuxtResult v = Except.error noResultMsg) ∧
    (∀ val, v = some val → jvalTruthy val = false →
      evalNuxtResult v = Except.error noResultMsg) ∧
    (∀ val, v = some val → jvalTruthy val = true →
      evalNuxtResult v = Except.ok val) := by
  refine ⟨?_, ?_, ?_⟩
  · intro h; subst h; rfl
  · intro val h hf; subst h; simp [evalNuxtResult, hf]
  · intro val h ht; subst h; simp [evalNuxtResult, ht]

/-- Witness for C7 (amended): a truthy string value is returned; the unset
property and the assigned value `0` both produce the no-result error. -/
theorem c7_witness :
    evalNuxtResult (some (JVal.str "x")) = Except.ok (JVal.str "x") ∧
    evalNuxtResult none = Except.error noResultMsg ∧
    evalNuxtResult (some (JVal.num 0)) = Except.error noResultMsg :=
  ⟨(c7_amended (some (JVal.str "x"))).2.2 (JVal.str "x") rfl (by decide),
   (c7_amended none).1 rfl,
   (c7_amended (some (JVal.num 0))).2.1 (JVal.num 0) rfl (by decide)⟩

/-! ## Claim C8 — configuration overrides and defaults -/

/-- C8 counterexample: the claim predicts that a negative override such as
`"-5"` (not a valid *non-negative* number) silently falls back to the
default; `envNumber` only checks finiteness, so the effective max-attempts
parameter becomes `-5`, not the default `3`. -/
theorem c8_counterexample :
    FETCH_RETRY_MAX (some "-5") = -5 ∧ FETCH_RETRY_MAX (some "-5") ≠ 3 := by
  constructor
  · decide
  · decide

/-- C8 (amended): for each of the three configuration overrides, an unset,
empty, or non-parseable (non-finite) value silently yields the documented
default (3, 500, 8000 respectively); otherwise the effective parameter is
exactly the supplied finite number — including negative values, which are
not rejected. -/
theorem c8_amended (raw : Option String) :
    ((raw = none ∨ raw = some "" ∨ (∃ r, raw = some r ∧ jsNumber r = none)) →
      FETCH_RETRY_MAX raw = 3 ∧ FETCH_RETRY_BASE_DELAY_MS raw = 500 ∧
        FETCH_RETRY_MAX_DELAY_MS raw = 8000) ∧
    (∀ r n, raw = some r → r ≠ "" → jsNumber r = some n →
      FETCH_RETRY_MAX raw = n ∧ FETCH_RETRY_BASE_DELAY_MS raw = n ∧
        FETCH_RETRY_MAX_DELAY_MS raw = n) := by
  constructor
  · rintro (h | h | ⟨r, h, hr⟩) <;> subst h <;>
      simp [FETCH_RETRY_MAX, FETCH_RETRY_BASE_DELAY_MS, FETCH_RETRY_MAX_DELAY_MS,
        envNumber]
    by_cases hre : r = "" <;>
      simp [hre, hr]
  · intro r n h hne hn
    subst h
    simp [FETCH_RETRY_MAX, FETCH_RETRY_BASE_DELAY_MS, FETCH_RETRY_MAX_DELAY_MS,
      envNumber, hne, hn]

/-- Witness for C8 (amended): the override `"7"` sets all three parameters
to 7; an unset override leaves the defaults 3, 500 and 8000. -/
theorem c8_witness :
    (FETCH_RETRY_MAX (some "7") = 7 ∧ FETCH_RETRY_BASE_DELAY_MS (some "7") = 7 ∧
      FETCH_RETRY_MAX_DELAY_MS (some "7") = 7) ∧
    (FETCH_RETRY_MAX none = 3 ∧ FETCH_RETRY_BASE_DELAY_MS none = 500 ∧
      FETCH_RETRY_MAX_DELAY_MS none = 8000) :=
  ⟨(c8_amended (some "7")).2 "7" 7 rfl (by decide) (by decide),
   (c8_amended none).1 (Or.inl rfl)⟩

/-! ## Extraction lemmas -/

theorem extractAtPos_eq_none (cs : List Char)
    (h : charsPrefix windowNuxtLit cs = false) : extractAtPos cs = none := by
  simp [extractAtPos, matchPre, h]

/-- On `magicAssign` itself the whole pattern matches at position 0 and the
capture group is exactly `magicExpr` — for every suffix `s`: the match never
inspects anything past the assignment's closing parenthesis. -/
theorem scanNuxt_magic (s : List Char) :
    scanNuxt (magicAssign.data ++ s) = some magicExpr.data := rfl

theorem scanNuxt_append_magic (p s : List Char)
    (hp : ∀ i, i < p.length →
      charsPrefix windowNuxtLit ((p ++ magicAssign.data ++ s).drop i) = false) :
    scanNuxt (p ++ magicAssign.data ++ s) = some magicExpr.data := by
  induction p with
  | nil => exact scanNuxt_magic s
  | cons c p ih =>
    have h0 : charsPrefix windowNuxtLit (c :: (p ++ magicAssign.data ++ s)) = false := by
      have := hp 0 (by simp)
      simpa using this
    have hrest : ∀ i, i < p.length →
        charsPrefix windowNuxtLit ((p ++ magicAssign.data ++ s).drop i) = false := by
      intro i hi
      have := hp (i + 1) (by simpa using Nat.succ_lt_succ hi)
      simpa using this
    show scanNuxt (c :: (p ++ magicAssign.data ++ s)) = some magicExpr.data
    rw [scanNuxt, extractAtPos_eq_none _ h0]
    exact ih hrest

theorem scanNuxt_none_of_no_lit (cs : List Char)
    (h : ∀ i, charsPrefix windowNuxtLit (cs.drop i) = false) :
    scanNuxt cs = none := by
  induction cs with
  | nil => rfl
  | cons c rest ih =>
    rw [scanNuxt, extractAtPos_eq_none _ (by simpa using h 0)]
    exact ih fun i => by simpa using h (i + 1)

/-! ## Claim C9 — extraction of the embedded assignment -/

/-- C9 counterexample: the claim asserts that *every* HTML text containing
the target assignment substring yields that assignment's self-invoking
expression.  In `decoyHtml` an earlier `window.__NUXT__` assignment
precedes the target; the leftmost, lazily-quantified match wins and
extraction returns the decoy expression instead. -/
theorem c9_counterexample :
    extractNuxtExpression decoyHtml = Except.ok decoyExpr ∧ decoyExpr ≠ magicExpr :=
  ⟨rfl, by decide⟩

/-- C9 (amended): for every HTML text in which no occurrence of
`window.__NUXT__` precedes the target assignment, extraction succeeds and
returns exactly the self-invoking function expression; the expression's
value (spec-modelled evaluation of the data literal) is an object whose
`data[0].hotArticlesList` is an empty sequence; and every HTML text that
nowhere contains `window.__NUXT__` (hence no such assignment) makes
extraction fail with the pattern-not-found error. -/
theorem c9_amended (p s : List Char)
    (hp : ∀ i, i < p.length →
      charsPrefix windowNuxtLit ((p ++ magicAssign.data ++ s).drop i) = false) :
    extractNuxtExpression (String.mk (p ++ magicAssign.data ++ s)) =
      Except.ok magicExpr ∧
    getField magicNuxtValue "data" =
      some (JVal.arr [JVal.obj [("hotArticlesList", JVal.arr [])]]) ∧
    getField (JVal.obj [("hotArticlesList", JVal.arr [])]) "hotArticlesList" =
      some (JVal.arr []) ∧
    (∀ html : String, (∀ i, charsPrefix windowNuxtLit (html.data.drop i) = false) →
      extractNuxtExpression html = Except.error extractionErrMsg) := by
  refine ⟨?_, rfl, rfl, ?_⟩
  · show (match scanNuxt (p ++ magicAssign.data ++ s) with
      | some g => Except.ok (String.mk g)
      | none => Except.error extractionErrMsg) = Except.ok magicExpr
    rw [scanNuxt_append_magic p s hp]
  · intro html hna
    show (match scanNuxt html.data with
      | some g => Except.ok (String.mk g)
      | none => Except.error extractionErrMsg) = Except.error extractionErrMsg
    rw [scanNuxt_none_of_no_lit html.data hna]

/-- Witness for C9 (amended) with the empty prefix and suffix. -/
theorem c9_witness :
    extractNuxtExpression (String.mk ([] ++ magicAssign.data ++ [])) =
      Except.ok magicExpr ∧
    getField magicNuxtValue "data" =
      some (JVal.arr [JVal.obj [("hotArticlesList", JVal.arr [])]]) ∧
    getField (JVal.obj [("hotArticlesList", JVal.arr [])]) "hotArticlesList" =
      some (JVal.arr []) ∧
    (∀ html : String, (∀ i, charsPrefix windowNuxtLit (html.data.drop i) = false) →
      extractNuxtExpression html = Except.error extractionErrMsg) :=
  c9_amended [] [] fun i hi => absurd hi (by simp)

end HuxiuRss
